import Mathlib

/-!
Shallow embedding of the FranchiserController contract (Solidity, checked
uint256 arithmetic) together with the off-chain mining monitor tick, and
proofs of the specified properties.

Conventions of the embedding:
- uint256 values are natural numbers; Solidity 0.8 arithmetic is checked, so
  every addition or multiplication whose mathematical value would reach
  2 ^ 256 reverts with a panic, and division by zero reverts with a panic.
  These reverts are modelled as explicit error results.
- Fallible entry points return an Except value; an error result models an
  EVM revert, under which no state change and no event survive. The helper
  applyCall turns a call result back into the observable post-state.
- Caller identity and role membership, the block timestamp, the transaction
  gas price and whether an outbound ETH transfer is accepted are packaged in
  a per-call environment. Role membership sits in the environment because no
  modelled operation grants or revokes roles.
- The external Rig is a read view (spot price, quote function, epoch id)
  plus one flag saying whether its payable mint call succeeds.
-/

namespace Franchiser

/-- First value outside the uint256 range: checked arithmetic reverts when an
intermediate result reaches this bound. -/
def U256LIM : Nat := 2 ^ 256

/-- Mirror of the contract Config struct. maxGasPrice is denominated in gwei
(the contract multiplies it by 1 gwei before comparing with the wei-valued
transaction gas price). -/
structure Config where
  maxPricePerToken : Nat
  minProfitMargin : Nat
  maxMintAmount : Nat
  minMintAmount : Nat
  autoMiningEnabled : Bool
  cooldownPeriod : Nat
  maxGasPrice : Nat
deriving DecidableEq

/-- Persistent contract state tracked by the embedding: the configuration,
the cooldown timer and the ETH balance held in custody. -/
structure ControllerState where
  config : Config
  lastMintTimestamp : Nat
  balance : Nat
deriving DecidableEq

/-- Per-call environment: caller identity and roles, block timestamp (s),
transaction gas price (wei), attached value (wei) and whether an outbound
ETH transfer to the chosen recipient is accepted. -/
structure Env where
  sender : Nat
  senderIsOwner : Bool
  senderIsManager : Bool
  timestamp : Nat
  gasprice : Nat
  msgValue : Nat
  transferOk : Bool
deriving DecidableEq

/-- Read view of the external Rig at call time, plus the outcome of its
payable mint entry point. -/
structure RigView where
  quotePrice : Nat
  quote : Nat → Nat
  currentEpochId : Nat
  mintOk : Bool

/-- Solidity 0.8 panic causes reachable in the modelled code. -/
inductive PanicKind
  | overflow
  | divByZero
deriving DecidableEq

/-- Distinct failure outcomes of executeMint, one per require clause plus
the role check, the forwarded Rig failure and arithmetic panics. -/
inductive MintError
  | notManager
  | autoMiningDisabled
  | amountOutOfBounds
  | cooldownActive
  | gasPriceTooHigh
  | insufficientBalance
  | priceTooHigh
  | rigMintFailed
  | panic (k : PanicKind)
deriving DecidableEq

/-- Failure outcomes of updateConfig and emergencyStop. -/
inductive ConfigError
  | notOwner
  | invalidMintAmounts
  | cooldownTooLong
  | invalidGasPrice
deriving DecidableEq

/-- Failure outcomes of withdrawETH. -/
inductive WithdrawError
  | notOwner
  | invalidRecipient
  | nothingToWithdraw
  | insufficientBalance
  | transferFailed
deriving DecidableEq

/-- Events emitted by the contract operations modelled here. -/
inductive Event
  | tokensMinted (recipient amount cost epochId : Nat)
  | configUpdated (cfg : Config)
  | ethWithdrawn (toAddr amount : Nat)
  | emergencyStopped (initiator : Nat)
deriving DecidableEq

/-- Observable post-state of a call: the new state on success, the pre-state
on any error (EVM revert semantics). -/
def applyCall {e : Type} (st : ControllerState)
    (r : Except e (ControllerState × Event)) : ControllerState :=
  match r with
  | .ok (st2, _) => st2
  | .error _ => st

/-- checkProfitability: view function reading the Rig spot price. Returns
(isProfitable, currentPrice, recommendedAmount) exactly as the contract
computes them. -/
def checkProfitability (st : ControllerState) (rig : RigView) :
    Bool × Nat × Nat :=
  let currentPrice := rig.quotePrice
  if st.config.maxPricePerToken < currentPrice then
    (false, currentPrice, 0)
  else
    let isProfitable := decide (currentPrice ≤ st.config.maxPricePerToken)
    let recommendedAmount := if isProfitable then st.config.maxMintAmount else 0
    (isProfitable, currentPrice, recommendedAmount)

/-- executeMint, translated require by require from the contract. The six
guards run in source order after the Manager role check; checked-arithmetic
panics are placed exactly where the source expression computes the value.
On success the quoted cost leaves the balance, the cooldown timer is set to
the block timestamp and the TokensMinted event is produced. -/
def executeMint (st : ControllerState) (env : Env) (rig : RigView)
    (recipient amount : Nat) : Except MintError (ControllerState × Event) :=
  if env.senderIsManager = false then .error .notManager
  else if st.config.autoMiningEnabled = false then .error .autoMiningDisabled
  else if amount < st.config.minMintAmount ∨ st.config.maxMintAmount < amount then
    .error .amountOutOfBounds
  else if U256LIM ≤ st.lastMintTimestamp + st.config.cooldownPeriod then
    .error (.panic .overflow)
  else if env.timestamp < st.lastMintTimestamp + st.config.cooldownPeriod then
    .error .cooldownActive
  else if U256LIM ≤ st.config.maxGasPrice * 1000000000 then
    .error (.panic .overflow)
  else if st.config.maxGasPrice * 1000000000 < env.gasprice then
    .error .gasPriceTooHigh
  else if st.balance < rig.quote amount then
    .error .insufficientBalance
  else if U256LIM ≤ rig.quote amount * 1000000000000000000 then
    .error (.panic .overflow)
  else if amount = 0 then
    .error (.panic .divByZero)
  else if st.config.maxPricePerToken < rig.quote amount * 1000000000000000000 / amount then
    .error .priceTooHigh
  else if rig.mintOk = false then
    .error .rigMintFailed
  else
    .ok ({ st with
            lastMintTimestamp := env.timestamp,
            balance := st.balance - rig.quote amount },
         .tokensMinted recipient amount (rig.quote amount) rig.currentEpochId)

/-- updateConfig: Owner-only wholesale replacement of the configuration,
guarded by the three validation requires of the source. -/
def updateConfig (st : ControllerState) (env : Env)
    (maxPricePerToken minProfitMargin maxMintAmount minMintAmount : Nat)
    (autoMiningEnabled : Bool) (cooldownPeriod maxGasPrice : Nat) :
    Except ConfigError (ControllerState × Event) :=
  if env.senderIsOwner = false then .error .notOwner
  else if maxMintAmount < minMintAmount then .error .invalidMintAmounts
  else if 86400 < cooldownPeriod then .error .cooldownTooLong
  else if maxGasPrice = 0 then .error .invalidGasPrice
  else
    let cfg : Config :=
      ⟨maxPricePerToken, minProfitMargin, maxMintAmount, minMintAmount,
       autoMiningEnabled, cooldownPeriod, maxGasPrice⟩
    .ok ({ st with config := cfg }, .configUpdated cfg)

/-- emergencyStop: Owner-only switch turning auto mining off. -/
def emergencyStop (st : ControllerState) (env : Env) :
    Except ConfigError (ControllerState × Event) :=
  if env.senderIsOwner = false then .error .notOwner
  else
    .ok ({ st with config := { st.config with autoMiningEnabled := false } },
         .emergencyStopped env.sender)

/-- withdrawETH: Owner-only ETH withdrawal; amount 0 is the sentinel for the
entire balance; the outbound transfer may itself fail. -/
def withdrawETH (st : ControllerState) (env : Env) (toAddr amount : Nat) :
    Except WithdrawError (ControllerState × Event) :=
  if env.senderIsOwner = false then .error .notOwner
  else if toAddr = 0 then .error .invalidRecipient
  else if (if amount = 0 then st.balance else amount) = 0 then
    .error .nothingToWithdraw
  else if st.balance < (if amount = 0 then st.balance else amount) then
    .error .insufficientBalance
  else if env.transferOk = false then .error .transferFailed
  else
    .ok ({ st with balance := st.balance - (if amount = 0 then st.balance else amount) },
         .ethWithdrawn toAddr (if amount = 0 then st.balance else amount))

/-- Aggregated view returned by getMiningStatus. -/
structure MiningStatus where
  isEnabled : Bool
  canMintNow : Bool
  currentPrice : Nat
  nextMintTime : Nat
  ethBalance : Nat
  currentEpochId : Nat
deriving DecidableEq

/-- getMiningStatus: pure aggregated read. -/
def getMiningStatus (st : ControllerState) (env : Env) (rig : RigView) :
    MiningStatus where
  isEnabled := st.config.autoMiningEnabled
  canMintNow := decide (rig.quotePrice ≤ st.config.maxPricePerToken) &&
    decide (st.lastMintTimestamp + st.config.cooldownPeriod ≤ env.timestamp)
  currentPrice := rig.quotePrice
  nextMintTime := st.lastMintTimestamp + st.config.cooldownPeriod
  ethBalance := st.balance
  currentEpochId := rig.currentEpochId

/-- Boolean success test for executeMint, used by the trace semantics. -/
def mintOk (st : ControllerState) (env : Env) (rig : RigView)
    (recipient amount : Nat) : Bool :=
  match executeMint st env rig recipient amount with
  | .ok _ => true
  | .error _ => false

/-- View struct returned by the checkProfitability RPC call as the monitor
destructures it. -/
structure ProfitabilityView where
  isProfitable : Bool
  currentPrice : Nat
  recommendedAmount : Nat
deriving DecidableEq

/-- RPC calls the monitor issues against the Controller during one tick, in
issue order. -/
inductive MonitorCall
  | getMiningStatus
  | checkProfitability
  | executeMint (recipient amount : Nat)
deriving DecidableEq

/-- How a monitor tick ends before the confirmation-wait phase. -/
inductive TickOutcome
  | disabledSkip
  | cooldownSkip
  | notProfitableSkip
  | mintSubmitted (recipient amount : Nat)
deriving DecidableEq

/-- One tick of the monitor (the checkAndMine function), translated from the
source control flow: read getMiningStatus; return if disabled; read
checkProfitability; return if the cooldown gate canMintNow is closed; return
if not profitable or the recommendation is zero; otherwise submit
executeMint with the recommended amount. The first component records every
Controller call issued by the tick, in order. -/
def checkAndMine (status : MiningStatus) (prof : ProfitabilityView)
    (recipient : Nat) : List MonitorCall × TickOutcome :=
  if status.isEnabled = false then
    ([.getMiningStatus], .disabledSkip)
  else if status.canMintNow = false then
    ([.getMiningStatus, .checkProfitability], .cooldownSkip)
  else if prof.isProfitable = false ∨ prof.recommendedAmount = 0 then
    ([.getMiningStatus, .checkProfitability], .notProfitableSkip)
  else
    ([.getMiningStatus, .checkProfitability,
      .executeMint recipient prof.recommendedAmount],
     .mintSubmitted recipient prof.recommendedAmount)

/-- One externally observable operation on the Controller, with the
environment and Rig snapshot of that call. withdrawTokens moves only ERC20
balances held by third-party token contracts, none of which belong to the
tracked state, so it carries no state effect here. receiveETH is the payable
receive entry point crediting the attached value. -/
inductive Op
  | executeMint (env : Env) (rig : RigView) (recipient amount : Nat)
  | updateConfig (env : Env)
      (maxPricePerToken minProfitMargin maxMintAmount minMintAmount : Nat)
      (autoMiningEnabled : Bool) (cooldownPeriod maxGasPrice : Nat)
  | emergencyStop (env : Env)
  | withdrawETH (env : Env) (toAddr amount : Nat)
  | withdrawTokens (env : Env) (token toAddr amount : Nat)
  | receiveETH (env : Env)

/-- Transition function over Controller state: each operation either commits
its new state or reverts, leaving the pre-state. -/
def step (st : ControllerState) (op : Op) : ControllerState :=
  match op with
  | .executeMint env rig recipient amount =>
      applyCall st (executeMint st env rig recipient amount)
  | .updateConfig env a b c d e f g =>
      applyCall st (updateConfig st env a b c d e f g)
  | .emergencyStop env => applyCall st (emergencyStop st env)
  | .withdrawETH env toAddr amount =>
      applyCall st (withdrawETH st env toAddr amount)
  | .withdrawTokens _ _ _ _ => st
  | .receiveETH env => { st with balance := st.balance + env.msgValue }

/-- Runs a sequence of operations from a starting state. -/
def run (st : ControllerState) : List Op → ControllerState
  | [] => st
  | op :: rest => run (step st op) rest

/-- Holds when no operation of the sequence is an executeMint call that
succeeds from the state it actually runs in. -/
def noSuccessfulMint : ControllerState → List Op → Prop
  | _, [] => True
  | st, op :: rest =>
      (∀ env rig recipient amount, op = .executeMint env rig recipient amount →
        mintOk st env rig recipient amount = false) ∧
      noSuccessfulMint (step st op) rest

/-- Unit conversion used by the gas guard: the stored ceiling is in gwei,
the transaction gas price in wei. -/
def gweiToWei (g : Nat) : Nat := g * 1000000000

/-- Guard 1 of executeMint: the global auto-mining switch is on. -/
def miningEnabled (st : ControllerState) : Prop :=
  st.config.autoMiningEnabled = true

/-- Guard 2 of executeMint: the requested amount lies in the configured
mint range. -/
def amountInBounds (cfg : Config) (amount : Nat) : Prop :=
  cfg.minMintAmount ≤ amount ∧ amount ≤ cfg.maxMintAmount

/-- Guard 3 of executeMint: the cooldown period has elapsed since the last
successful mint. -/
def cooldownElapsed (st : ControllerState) (env : Env) : Prop :=
  st.lastMintTimestamp + st.config.cooldownPeriod ≤ env.timestamp

/-- Guard 4 of executeMint: the effective gas price is at most the
configured ceiling (both sides in wei). -/
def gasPriceOk (st : ControllerState) (env : Env) : Prop :=
  env.gasprice ≤ gweiToWei st.config.maxGasPrice

/-- Guard 5 of executeMint: the quoted cost fits in the custody balance. -/
def balanceCoversCost (st : ControllerState) (rig : RigView) (amount : Nat) :
    Prop :=
  rig.quote amount ≤ st.balance

/-- Per-unit price implied by a quote, as the contract computes it. -/
def impliedPricePerToken (cost amount : Nat) : Nat :=
  cost * 1000000000000000000 / amount

/-- Guard 6 of executeMint: the implied per-unit price respects the
configured price ceiling. -/
def priceAcceptable (st : ControllerState) (rig : RigView) (amount : Nat) :
    Prop :=
  impliedPricePerToken (rig.quote amount) amount ≤ st.config.maxPricePerToken

instance (st : ControllerState) : Decidable (miningEnabled st) := by
  unfold miningEnabled; infer_instance

instance (cfg : Config) (amount : Nat) : Decidable (amountInBounds cfg amount) := by
  unfold amountInBounds; infer_instance

instance (st : ControllerState) (env : Env) : Decidable (cooldownElapsed st env) := by
  unfold cooldownElapsed; infer_instance

instance (st : ControllerState) (env : Env) : Decidable (gasPriceOk st env) := by
  unfold gasPriceOk; infer_instance

instance (st : ControllerState) (rig : RigView) (amount : Nat) :
    Decidable (balanceCoversCost st rig amount) := by
  unfold balanceCoversCost; infer_instance

instance (st : ControllerState) (rig : RigView) (amount : Nat) :
    Decidable (priceAcceptable st rig amount) := by
  unfold priceAcceptable; infer_instance

/-- Side conditions keeping the checked uint256 arithmetic of executeMint
away from overflow panics. -/
def noMintPanics (st : ControllerState) (rig : RigView) (amount : Nat) :
    Prop :=
  st.lastMintTimestamp + st.config.cooldownPeriod < U256LIM ∧
  st.config.maxGasPrice * 1000000000 < U256LIM ∧
  rig.quote amount * 1000000000000000000 < U256LIM

instance (st : ControllerState) (rig : RigView) (amount : Nat) :
    Decidable (noMintPanics st rig amount) := by
  unfold noMintPanics; infer_instance

/-- Baseline configuration for concrete evaluations: price ceiling 10^18
wei per token, mint range 1..100 tokens, cooldown 300 s, gas ceiling
10 gwei. -/
def cfg1 : Config := ⟨1000000000000000000, 1000, 100, 1, true, 300, 10⟩

/-- Baseline state: fresh cooldown timer and a balance of 10^20 wei. -/
def st1 : ControllerState := ⟨cfg1, 0, 10 ^ 20⟩

/-- Manager call environment at block time 1000 and gas price 1 gwei. -/
def envM : Env := ⟨2, false, true, 1000, 1000000000, 0, true⟩

/-- Owner call environment. -/
def envO : Env := ⟨1, true, false, 1000, 1000000000, 0, true⟩

/-- Rig whose quote prices every token at exactly 10^-18 wei per token unit
and whose mint call succeeds. -/
def rig1 : RigView := ⟨5 * 10 ^ 17, fun a => a, 1, true⟩

/-- Same prices as rig1, but the forwarded mint call fails. -/
def rigFail : RigView := ⟨5 * 10 ^ 17, fun a => a, 1, false⟩

/-- Configuration with minMintAmount = 0, accepted by updateConfig. -/
def cfgMin0 : Config := ⟨1000000000000000000, 0, 5, 0, true, 10, 10⟩

/-- State holding cfgMin0, for the division-by-zero scenario. -/
def stMin0 : ControllerState := ⟨cfgMin0, 0, 100⟩

/-- Rig quoting one wei per token unit, successful mint call. -/
def rigMin0 : RigView := ⟨1, fun a => a, 1, true⟩

/-- State and environments for the cooldown-window trace scenario: cooldown
of 10 s, first mint at time 100, second attempt at time 110. -/
def stW : ControllerState := ⟨⟨1000000000000000000, 0, 100, 1, true, 10, 10⟩, 0, 10 ^ 20⟩

/-- First mint environment of the trace scenario (time 100). -/
def envW1 : Env := ⟨2, false, true, 100, 1000000000, 0, true⟩

/-- Second mint environment of the trace scenario (time 110). -/
def envW2 : Env := ⟨2, false, true, 110, 1000000000, 0, true⟩

/-- The mint call reverts with the distinct disabled error when auto mining
is off (Manager caller). -/
theorem executeMint_disabled_of (st : ControllerState) (env : Env)
    (rig : RigView) (recipient amount : Nat)
    (hmgr : env.senderIsManager = true)
    (hen : st.config.autoMiningEnabled = false) :
    executeMint st env rig recipient amount = .error .autoMiningDisabled := by
  simp [executeMint, hmgr, hen]

/-- The mint call reverts with the bounds error when the amount misses the
configured range and the earlier guard passes. -/
theorem executeMint_oob_of (st : ControllerState) (env : Env)
    (rig : RigView) (recipient amount : Nat)
    (hmgr : env.senderIsManager = true)
    (hen : st.config.autoMiningEnabled = true)
    (hb : amount < st.config.minMintAmount ∨ st.config.maxMintAmount < amount) :
    executeMint st env rig recipient amount = .error .amountOutOfBounds := by
  simp [executeMint, hmgr, hen, hb]

/-- The mint call reverts with the cooldown error exactly at the third
guard. -/
theorem executeMint_cooldown_of (st : ControllerState) (env : Env)
    (rig : RigView) (recipient amount : Nat)
    (hmgr : env.senderIsManager = true)
    (hen : st.config.autoMiningEnabled = true)
    (hlo : st.config.minMintAmount ≤ amount)
    (hhi : amount ≤ st.config.maxMintAmount)
    (h1 : st.lastMintTimestamp + st.config.cooldownPeriod < U256LIM)
    (hcd : env.timestamp < st.lastMintTimestamp + st.config.cooldownPeriod) :
    executeMint st env rig recipient amount = .error .cooldownActive := by
  simp [executeMint, hmgr, hen, hcd, Nat.not_lt.mpr hlo, Nat.not_lt.mpr hhi,
    Nat.not_le.mpr h1]

/-- The mint call reverts with the gas-price error exactly at the fourth
guard. -/
theorem executeMint_gas_of (st : ControllerState) (env : Env)
    (rig : RigView) (recipient amount : Nat)
    (hmgr : env.senderIsManager = true)
    (hen : st.config.autoMiningEnabled = true)
    (hlo : st.config.minMintAmount ≤ amount)
    (hhi : amount ≤ st.config.maxMintAmount)
    (h1 : st.lastMintTimestamp + st.config.cooldownPeriod < U256LIM)
    (hcd : st.lastMintTimestamp + st.config.cooldownPeriod ≤ env.timestamp)
    (h2 : st.config.maxGasPrice * 1000000000 < U256LIM)
    (hg : st.config.maxGasPrice * 1000000000 < env.gasprice) :
    executeMint st env rig recipient amount = .error .gasPriceTooHigh := by
  simp [executeMint, hmgr, hen, hg, Nat.not_lt.mpr hlo, Nat.not_lt.mpr hhi,
    Nat.not_le.mpr h1, Nat.not_lt.mpr hcd, Nat.not_le.mpr h2]

/-- The mint call reverts with the balance error exactly at the fifth
guard. -/
theorem executeMint_balance_of (st : ControllerState) (env : Env)
    (rig : RigView) (recipient amount : Nat)
    (hmgr : env.senderIsManager = true)
    (hen : st.config.autoMiningEnabled = true)
    (hlo : st.config.minMintAmount ≤ amount)
    (hhi : amount ≤ st.config.maxMintAmount)
    (h1 : st.lastMintTimestamp + st.config.cooldownPeriod < U256LIM)
    (hcd : st.lastMintTimestamp + st.config.cooldownPeriod ≤ env.timestamp)
    (h2 : st.config.maxGasPrice * 1000000000 < U256LIM)
    (hg : env.gasprice ≤ st.config.maxGasPrice * 1000000000)
    (hb : st.balance < rig.quote amount) :
    executeMint st env rig recipient amount = .error .insufficientBalance := by
  simp [executeMint, hmgr, hen, hb, Nat.not_lt.mpr hlo, Nat.not_lt.mpr hhi,
    Nat.not_le.mpr h1, Nat.not_lt.mpr hcd, Nat.not_le.mpr h2,
    Nat.not_lt.mpr hg]

/-- The mint call reverts with the price error exactly at the sixth guard. -/
theorem executeMint_price_of (st : ControllerState) (env : Env)
    (rig : RigView) (recipient amount : Nat)
    (hmgr : env.senderIsManager = true)
    (hen : st.config.autoMiningEnabled = true)
    (hlo : st.config.minMintAmount ≤ amount)
    (hhi : amount ≤ st.config.maxMintAmount)
    (h1 : st.lastMintTimestamp + st.config.cooldownPeriod < U256LIM)
    (hcd : st.lastMintTimestamp + st.config.cooldownPeriod ≤ env.timestamp)
    (h2 : st.config.maxGasPrice * 1000000000 < U256LIM)
    (hg : env.gasprice ≤ st.config.maxGasPrice * 1000000000)
    (hb : rig.quote amount ≤ st.balance)
    (h3 : rig.quote amount * 1000000000000000000 < U256LIM)
    (hamt : amount ≠ 0)
    (hp : st.config.maxPricePerToken <
      rig.quote amount * 1000000000000000000 / amount) :
    executeMint st env rig recipient amount = .error .priceTooHigh := by
  simp [executeMint, hmgr, hen, hp, hamt, Nat.not_lt.mpr hlo,
    Nat.not_lt.mpr hhi, Nat.not_le.mpr h1, Nat.not_lt.mpr hcd,
    Nat.not_le.mpr h2, Nat.not_lt.mpr hg, Nat.not_lt.mpr hb,
    Nat.not_le.mpr h3]

/-- The mint call reverts with the forwarded-failure error when every guard
passes but the Rig mint call fails. -/
theorem executeMint_rigfail_of (st : ControllerState) (env : Env)
    (rig : RigView) (recipient amount : Nat)
    (hmgr : env.senderIsManager = true)
    (hen : st.config.autoMiningEnabled = true)
    (hlo : st.config.minMintAmount ≤ amount)
    (hhi : amount ≤ st.config.maxMintAmount)
    (h1 : st.lastMintTimestamp + st.config.cooldownPeriod < U256LIM)
    (hcd : st.lastMintTimestamp + st.config.cooldownPeriod ≤ env.timestamp)
    (h2 : st.config.maxGasPrice * 1000000000 < U256LIM)
    (hg : env.gasprice ≤ st.config.maxGasPrice * 1000000000)
    (hb : rig.quote amount ≤ st.balance)
    (h3 : rig.quote amount * 1000000000000000000 < U256LIM)
    (hamt : amount ≠ 0)
    (hp : rig.quote amount * 1000000000000000000 / amount ≤
      st.config.maxPricePerToken)
    (hmk : rig.mintOk = false) :
    executeMint st env rig recipient amount = .error .rigMintFailed := by
  simp [executeMint, hmgr, hen, hmk, hamt, Nat.not_lt.mpr hlo,
    Nat.not_lt.mpr hhi, Nat.not_le.mpr h1, Nat.not_lt.mpr hcd,
    Nat.not_le.mpr h2, Nat.not_lt.mpr hg, Nat.not_lt.mpr hb,
    Nat.not_le.mpr h3, Nat.not_lt.mpr hp]

/-- The mint call commits exactly when all guards pass and the Rig call
succeeds, with the quoted cost leaving custody and the cooldown timer moved
to the call timestamp. -/
theorem executeMint_ok_of (st : ControllerState) (env : Env)
    (rig : RigView) (recipient amount : Nat)
    (hmgr : env.senderIsManager = true)
    (hen : st.config.autoMiningEnabled = true)
    (hlo : st.config.minMintAmount ≤ amount)
    (hhi : amount ≤ st.config.maxMintAmount)
    (h1 : st.lastMintTimestamp + st.config.cooldownPeriod < U256LIM)
    (hcd : st.lastMintTimestamp + st.config.cooldownPeriod ≤ env.timestamp)
    (h2 : st.config.maxGasPrice * 1000000000 < U256LIM)
    (hg : env.gasprice ≤ st.config.maxGasPrice * 1000000000)
    (hb : rig.quote amount ≤ st.balance)
    (h3 : rig.quote amount * 1000000000000000000 < U256LIM)
    (hamt : amount ≠ 0)
    (hp : rig.quote amount * 1000000000000000000 / amount ≤
      st.config.maxPricePerToken)
    (hmk : rig.mintOk = true) :
    executeMint st env rig recipient amount =
      .ok ({ st with lastMintTimestamp := env.timestamp,
                     balance := st.balance - rig.quote amount },
           .tokensMinted recipient amount (rig.quote amount)
             rig.currentEpochId) := by
  simp [executeMint, hmgr, hen, hmk, hamt, Nat.not_lt.mpr hlo,
    Nat.not_lt.mpr hhi, Nat.not_le.mpr h1, Nat.not_lt.mpr hcd,
    Nat.not_le.mpr h2, Nat.not_lt.mpr hg, Nat.not_lt.mpr hb,
    Nat.not_le.mpr h3, Nat.not_lt.mpr hp]

/-- Exhaustive outcome analysis of executeMint for a Manager caller, away
from overflow panics and with a positive amount: the outcome is decided by
the first guard that fails, walked in source order. -/
theorem executeMint_outcome (st : ControllerState) (env : Env) (rig : RigView)
    (recipient amount : Nat)
    (hmgr : env.senderIsManager = true)
    (hnp : noMintPanics st rig amount)
    (hamt : 0 < amount) :
    (¬ miningEnabled st ∧
      executeMint st env rig recipient amount = .error .autoMiningDisabled) ∨
    (miningEnabled st ∧ ¬ amountInBounds st.config amount ∧
      executeMint st env rig recipient amount = .error .amountOutOfBounds) ∨
    (miningEnabled st ∧ amountInBounds st.config amount ∧
      ¬ cooldownElapsed st env ∧
      executeMint st env rig recipient amount = .error .cooldownActive) ∨
    (miningEnabled st ∧ amountInBounds st.config amount ∧
      cooldownElapsed st env ∧ ¬ gasPriceOk st env ∧
      executeMint st env rig recipient amount = .error .gasPriceTooHigh) ∨
    (miningEnabled st ∧ amountInBounds st.config amount ∧
      cooldownElapsed st env ∧ gasPriceOk st env ∧
      ¬ balanceCoversCost st rig amount ∧
      executeMint st env rig recipient amount = .error .insufficientBalance) ∨
    (miningEnabled st ∧ amountInBounds st.config amount ∧
      cooldownElapsed st env ∧ gasPriceOk st env ∧
      balanceCoversCost st rig amount ∧ ¬ priceAcceptable st rig amount ∧
      executeMint st env rig recipient amount = .error .priceTooHigh) ∨
    (miningEnabled st ∧ amountInBounds st.config amount ∧
      cooldownElapsed st env ∧ gasPriceOk st env ∧
      balanceCoversCost st rig amount ∧ priceAcceptable st rig amount ∧
      rig.mintOk = false ∧
      executeMint st env rig recipient amount = .error .rigMintFailed) ∨
    (miningEnabled st ∧ amountInBounds st.config amount ∧
      cooldownElapsed st env ∧ gasPriceOk st env ∧
      balanceCoversCost st rig amount ∧ priceAcceptable st rig amount ∧
      rig.mintOk = true ∧
      executeMint st env rig recipient amount =
        .ok ({ st with lastMintTimestamp := env.timestamp,
                       balance := st.balance - rig.quote amount },
             .tokensMinted recipient amount (rig.quote amount)
               rig.currentEpochId)) := by
  obtain ⟨h1, h2, h3⟩ := hnp
  have hamt2 : amount ≠ 0 := by omega
  by_cases he : miningEnabled st
  case neg =>
    exact Or.inl ⟨he, executeMint_disabled_of st env rig recipient amount hmgr
      (by simpa [miningEnabled] using he)⟩
  by_cases hbnd : amountInBounds st.config amount
  case neg =>
    refine Or.inr (Or.inl ⟨he, hbnd,
      executeMint_oob_of st env rig recipient amount hmgr he ?_⟩)
    unfold amountInBounds at hbnd; omega
  by_cases hcd : cooldownElapsed st env
  case neg =>
    refine Or.inr (Or.inr (Or.inl ⟨he, hbnd, hcd,
      executeMint_cooldown_of st env rig recipient amount hmgr he
        hbnd.1 hbnd.2 h1 ?_⟩))
    unfold cooldownElapsed at hcd; omega
  by_cases hgas : gasPriceOk st env
  case neg =>
    refine Or.inr (Or.inr (Or.inr (Or.inl ⟨he, hbnd, hcd, hgas,
      executeMint_gas_of st env rig recipient amount hmgr he
        hbnd.1 hbnd.2 h1 hcd h2 ?_⟩)))
    unfold gasPriceOk gweiToWei at hgas; omega
  by_cases hbal : balanceCoversCost st rig amount
  case neg =>
    refine Or.inr (Or.inr (Or.inr (Or.inr (Or.inl ⟨he, hbnd, hcd, hgas, hbal,
      executeMint_balance_of st env rig recipient amount hmgr he
        hbnd.1 hbnd.2 h1 hcd h2 hgas ?_⟩))))
    unfold balanceCoversCost at hbal; omega
  by_cases hpr : priceAcceptable st rig amount
  case neg =>
    refine Or.inr (Or.inr (Or.inr (Or.inr (Or.inr (Or.inl ⟨he, hbnd, hcd,
      hgas, hbal, hpr,
      executeMint_price_of st env rig recipient amount hmgr he
        hbnd.1 hbnd.2 h1 hcd h2 hgas hbal h3 hamt2 ?_⟩)))))
    unfold priceAcceptable impliedPricePerToken at hpr; omega
  by_cases hmk : rig.mintOk = true
  case neg =>
    have hmk2 : rig.mintOk = false := by simpa using hmk
    exact Or.inr (Or.inr (Or.inr (Or.inr (Or.inr (Or.inr (Or.inl ⟨he, hbnd,
      hcd, hgas, hbal, hpr, hmk2,
      executeMint_rigfail_of st env rig recipient amount hmgr he
        hbnd.1 hbnd.2 h1 hcd h2 hgas hbal h3 hamt2 hpr hmk2⟩))))))
  exact Or.inr (Or.inr (Or.inr (Or.inr (Or.inr (Or.inr (Or.inr ⟨he, hbnd,
    hcd, hgas, hbal, hpr, hmk,
    executeMint_ok_of st env rig recipient amount hmgr he
      hbnd.1 hbnd.2 h1 hcd h2 hgas hbal h3 hamt2 hpr hmk⟩))))))

/-- An amount inside the configured bounds can never produce the
out-of-bounds error, whatever the caller, state and Rig. -/
theorem executeMint_ne_oob (st : ControllerState) (env : Env) (rig : RigView)
    (recipient amount : Nat)
    (hlo : st.config.minMintAmount ≤ amount)
    (hhi : amount ≤ st.config.maxMintAmount) :
    executeMint st env rig recipient amount ≠ .error .amountOutOfBounds := by
  intro h
  unfold executeMint at h
  by_cases c1 : env.senderIsManager = false
  · rw [if_pos c1] at h; exact absurd h (by simp)
  rw [if_neg c1] at h
  by_cases c2 : st.config.autoMiningEnabled = false
  · rw [if_pos c2] at h; exact absurd h (by simp)
  rw [if_neg c2] at h
  by_cases c3 : amount < st.config.minMintAmount ∨
      st.config.maxMintAmount < amount
  · omega
  rw [if_neg c3] at h
  by_cases c4 : U256LIM ≤ st.lastMintTimestamp + st.config.cooldownPeriod
  · rw [if_pos c4] at h; exact absurd h (by simp)
  rw [if_neg c4] at h
  by_cases c5 : env.timestamp < st.lastMintTimestamp + st.config.cooldownPeriod
  · rw [if_pos c5] at h; exact absurd h (by simp)
  rw [if_neg c5] at h
  by_cases c6 : U256LIM ≤ st.config.maxGasPrice * 1000000000
  · rw [if_pos c6] at h; exact absurd h (by simp)
  rw [if_neg c6] at h
  by_cases c7 : st.config.maxGasPrice * 1000000000 < env.gasprice
  · rw [if_pos c7] at h; exact absurd h (by simp)
  rw [if_neg c7] at h
  by_cases c8 : st.balance < rig.quote amount
  · rw [if_pos c8] at h; exact absurd h (by simp)
  rw [if_neg c8] at h
  by_cases c9 : U256LIM ≤ rig.quote amount * 1000000000000000000
  · rw [if_pos c9] at h; exact absurd h (by simp)
  rw [if_neg c9] at h
  by_cases c10 : amount = 0
  · rw [if_pos c10] at h; exact absurd h (by simp)
  rw [if_neg c10] at h
  by_cases c11 : st.config.maxPricePerToken <
      rig.quote amount * 1000000000000000000 / amount
  · rw [if_pos c11] at h; exact absurd h (by simp)
  rw [if_neg c11] at h
  by_cases c12 : rig.mintOk = false
  · rw [if_pos c12] at h; exact absurd h (by simp)
  rw [if_neg c12] at h
  exact absurd h (by simp)

/-- Whatever the caller and Rig, a committed executeMint stamps the call
timestamp into the cooldown timer, that timestamp lies at least one
cooldown past the previous timer value, and the configuration is
untouched. -/
theorem executeMint_ok_inv (st : ControllerState) (env : Env) (rig : RigView)
    (recipient amount : Nat) (st2 : ControllerState) (ev : Event)
    (h : executeMint st env rig recipient amount = .ok (st2, ev)) :
    st2.lastMintTimestamp = env.timestamp ∧
    st.lastMintTimestamp + st.config.cooldownPeriod ≤ env.timestamp ∧
    st2.config = st.config := by
  unfold executeMint at h
  by_cases c1 : env.senderIsManager = false
  · rw [if_pos c1] at h; exact absurd h (by simp)
  rw [if_neg c1] at h
  by_cases c2 : st.config.autoMiningEnabled = false
  · rw [if_pos c2] at h; exact absurd h (by simp)
  rw [if_neg c2] at h
  by_cases c3 : amount < st.config.minMintAmount ∨
      st.config.maxMintAmount < amount
  · rw [if_pos c3] at h; exact absurd h (by simp)
  rw [if_neg c3] at h
  by_cases c4 : U256LIM ≤ st.lastMintTimestamp + st.config.cooldownPeriod
  · rw [if_pos c4] at h; exact absurd h (by simp)
  rw [if_neg c4] at h
  by_cases c5 : env.timestamp < st.lastMintTimestamp + st.config.cooldownPeriod
  · rw [if_pos c5] at h; exact absurd h (by simp)
  rw [if_neg c5] at h
  by_cases c6 : U256LIM ≤ st.config.maxGasPrice * 1000000000
  · rw [if_pos c6] at h; exact absurd h (by simp)
  rw [if_neg c6] at h
  by_cases c7 : st.config.maxGasPrice * 1000000000 < env.gasprice
  · rw [if_pos c7] at h; exact absurd h (by simp)
  rw [if_neg c7] at h
  by_cases c8 : st.balance < rig.quote amount
  · rw [if_pos c8] at h; exact absurd h (by simp)
  rw [if_neg c8] at h
  by_cases c9 : U256LIM ≤ rig.quote amount * 1000000000000000000
  · rw [if_pos c9] at h; exact absurd h (by simp)
  rw [if_neg c9] at h
  by_cases c10 : amount = 0
  · rw [if_pos c10] at h; exact absurd h (by simp)
  rw [if_neg c10] at h
  by_cases c11 : st.config.maxPricePerToken <
      rig.quote amount * 1000000000000000000 / amount
  · rw [if_pos c11] at h; exact absurd h (by simp)
  rw [if_neg c11] at h
  by_cases c12 : rig.mintOk = false
  · rw [if_pos c12] at h; exact absurd h (by simp)
  rw [if_neg c12] at h
  rw [Except.ok.injEq, Prod.mk.injEq] at h
  obtain ⟨hst, -⟩ := h
  subst hst
  exact ⟨rfl, by omega, rfl⟩

/-- Closed form of checkProfitability: the two-step source computation
(early return, then a recomputed profitability flag) collapses to a single
comparison against the price ceiling. -/
theorem checkProfitability_eq (st : ControllerState) (rig : RigView) :
    checkProfitability st rig =
      if st.config.maxPricePerToken < rig.quotePrice then
        (false, rig.quotePrice, 0)
      else
        (true, rig.quotePrice, st.config.maxMintAmount) := by
  simp only [checkProfitability]
  split_ifs with h h2
  · rfl
  · simp [h2]
  · exact absurd (decide_eq_true (Nat.not_lt.mp h)) h2

/-- Claim C5: for every configuration and every live spot price returned by
the Rig, checkProfitability returns (false, price, 0) when the price
exceeds maxPricePerToken and (true, price, maxMintAmount) otherwise; it is
a pure read with no state mutation (it consumes the state and returns only
the triple). -/
theorem checkProfitability_policy (st : ControllerState) (rig : RigView) :
    checkProfitability st rig =
      if st.config.maxPricePerToken < rig.quotePrice then
        (false, rig.quotePrice, 0)
      else
        (true, rig.quotePrice, st.config.maxMintAmount) :=
  checkProfitability_eq st rig

/-- Claim C3: whenever executeMint reaches the gas-price guard, the guard
passes exactly when the effective gas price (wei) is at most the configured
maxGasPrice ceiling (stored in gwei, compared after conversion to wei). -/
theorem executeMint_gas_guard_iff (st : ControllerState) (env : Env)
    (rig : RigView) (recipient amount : Nat)
    (hmgr : env.senderIsManager = true)
    (hen : miningEnabled st)
    (hbnd : amountInBounds st.config amount)
    (hcd : cooldownElapsed st env)
    (hnp : noMintPanics st rig amount)
    (hamt : 0 < amount) :
    (executeMint st env rig recipient amount ≠ .error .gasPriceTooHigh) ↔
      env.gasprice ≤ gweiToWei st.config.maxGasPrice := by
  rcases executeMint_outcome st env rig recipient amount hmgr hnp hamt with
    ⟨h, _⟩ | ⟨_, h, _⟩ | ⟨_, _, h, _⟩ | ⟨_, _, _, hg, hr⟩ |
    ⟨_, _, _, hg, _, hr⟩ | ⟨_, _, _, hg, _, _, hr⟩ |
    ⟨_, _, _, hg, _, _, _, hr⟩ | ⟨_, _, _, hg, _, _, _, hr⟩
  · exact absurd hen h
  · exact absurd hbnd h
  · exact absurd hcd h
  · exact iff_of_false (not_not_intro hr) hg
  · exact iff_of_true (by rw [hr]; simp) hg
  · exact iff_of_true (by rw [hr]; simp) hg
  · exact iff_of_true (by rw [hr]; simp) hg
  · exact iff_of_true (by rw [hr]; simp) hg

/-- Concrete instantiation of the gas-guard equivalence. -/
theorem executeMint_gas_guard_iff_witness :
    executeMint st1 envM rig1 7 10 ≠ .error .gasPriceTooHigh :=
  (executeMint_gas_guard_iff st1 envM rig1 7 10 (by decide) (by decide)
    (by decide) (by decide) (by decide) (by decide)).mpr (by decide)

/-- Claim C1: when all six executeMint preconditions pass but the forwarded
Rig mint call fails, the whole call reverts with the distinct rigMintFailed
error: the observable state is the pre-state (cooldown timer not advanced,
no funds leave custody) and no TokensMinted event is produced. -/
theorem executeMint_atomic_on_rig_failure (st : ControllerState) (env : Env)
    (rig : RigView) (recipient amount : Nat)
    (hmgr : env.senderIsManager = true)
    (hnp : noMintPanics st rig amount)
    (hamt : 0 < amount)
    (hen : miningEnabled st)
    (hbnd : amountInBounds st.config amount)
    (hcd : cooldownElapsed st env)
    (hgas : gasPriceOk st env)
    (hbal : balanceCoversCost st rig amount)
    (hpr : priceAcceptable st rig amount)
    (hfail : rig.mintOk = false) :
    executeMint st env rig recipient amount = .error .rigMintFailed ∧
    applyCall st (executeMint st env rig recipient amount) = st ∧
    ∀ st2 ev, executeMint st env rig recipient amount ≠ .ok (st2, ev) := by
  have hr := executeMint_rigfail_of st env rig recipient amount hmgr hen
    hbnd.1 hbnd.2 hnp.1 hcd hnp.2.1 hgas hbal hnp.2.2 (by omega) hpr hfail
  refine ⟨hr, by rw [hr]; rfl, ?_⟩
  intro st2 ev h
  rw [hr] at h
  exact absurd h (by simp)

/-- Concrete instantiation of the atomicity theorem: the baseline state with
a failing Rig mint reverts and keeps the pre-state. -/
theorem executeMint_atomic_on_rig_failure_witness :
    executeMint st1 envM rigFail 7 10 = .error .rigMintFailed ∧
    applyCall st1 (executeMint st1 envM rigFail 7 10) = st1 :=
  ⟨(executeMint_atomic_on_rig_failure st1 envM rigFail 7 10 (by decide)
      (by decide) (by decide) (by decide) (by decide) (by decide) (by decide)
      (by decide) (by decide) (by decide)).1,
   (executeMint_atomic_on_rig_failure st1 envM rigFail 7 10 (by decide)
      (by decide) (by decide) (by decide) (by decide) (by decide) (by decide)
      (by decide) (by decide) (by decide)).2.1⟩

/-- Claim C2: for a Manager caller (away from overflow panics, positive
amount), the six preconditions of executeMint are evaluated in source
order: each of the six guard failures is reported exactly when its guard is
the first to fail, the six error values are pairwise distinct, and every
error leaves the observable state unchanged. -/
theorem executeMint_guard_order (st : ControllerState) (env : Env)
    (rig : RigView) (recipient amount : Nat)
    (hmgr : env.senderIsManager = true)
    (hnp : noMintPanics st rig amount)
    (hamt : 0 < amount) :
    (executeMint st env rig recipient amount = .error .autoMiningDisabled ↔
      ¬ miningEnabled st) ∧
    (executeMint st env rig recipient amount = .error .amountOutOfBounds ↔
      miningEnabled st ∧ ¬ amountInBounds st.config amount) ∧
    (executeMint st env rig recipient amount = .error .cooldownActive ↔
      miningEnabled st ∧ amountInBounds st.config amount ∧
      ¬ cooldownElapsed st env) ∧
    (executeMint st env rig recipient amount = .error .gasPriceTooHigh ↔
      miningEnabled st ∧ amountInBounds st.config amount ∧
      cooldownElapsed st env ∧ ¬ gasPriceOk st env) ∧
    (executeMint st env rig recipient amount = .error .insufficientBalance ↔
      miningEnabled st ∧ amountInBounds st.config amount ∧
      cooldownElapsed st env ∧ gasPriceOk st env ∧
      ¬ balanceCoversCost st rig amount) ∧
    (executeMint st env rig recipient amount = .error .priceTooHigh ↔
      miningEnabled st ∧ amountInBounds st.config amount ∧
      cooldownElapsed st env ∧ gasPriceOk st env ∧
      balanceCoversCost st rig amount ∧ ¬ priceAcceptable st rig amount) ∧
    List.Pairwise (fun a b => a ≠ b)
      [MintError.autoMiningDisabled, MintError.amountOutOfBounds,
       MintError.cooldownActive, MintError.gasPriceTooHigh,
       MintError.insufficientBalance, MintError.priceTooHigh] ∧
    (∀ err, executeMint st env rig recipient amount = .error err →
      applyCall st (executeMint st env rig recipient amount) = st) := by
  rcases executeMint_outcome st env rig recipient amount hmgr hnp hamt with
    ⟨hA, hr⟩ | ⟨hA, hB, hr⟩ | ⟨hA, hB, hC, hr⟩ | ⟨hA, hB, hC, hD, hr⟩ |
    ⟨hA, hB, hC, hD, hE, hr⟩ | ⟨hA, hB, hC, hD, hE, hF, hr⟩ |
    ⟨hA, hB, hC, hD, hE, hF, hM, hr⟩ | ⟨hA, hB, hC, hD, hE, hF, hM, hr⟩
  · rw [hr]
    exact ⟨iff_of_true rfl hA,
      iff_of_false (by simp) (fun hR => hA hR.1),
      iff_of_false (by simp) (fun hR => hA hR.1),
      iff_of_false (by simp) (fun hR => hA hR.1),
      iff_of_false (by simp) (fun hR => hA hR.1),
      iff_of_false (by simp) (fun hR => hA hR.1),
      by decide, fun err _ => rfl⟩
  · rw [hr]
    exact ⟨iff_of_false (by simp) (fun hR => hR hA),
      iff_of_true rfl ⟨hA, hB⟩,
      iff_of_false (by simp) (fun hR => hB hR.2.1),
      iff_of_false (by simp) (fun hR => hB hR.2.1),
      iff_of_false (by simp) (fun hR => hB hR.2.1),
      iff_of_false (by simp) (fun hR => hB hR.2.1),
      by decide, fun err _ => rfl⟩
  · rw [hr]
    exact ⟨iff_of_false (by simp) (fun hR => hR hA),
      iff_of_false (by simp) (fun hR => hR.2 hB),
      iff_of_true rfl ⟨hA, hB, hC⟩,
      iff_of_false (by simp) (fun hR => hC hR.2.2.1),
      iff_of_false (by simp) (fun hR => hC hR.2.2.1),
      iff_of_false (by simp) (fun hR => hC hR.2.2.1),
      by decide, fun err _ => rfl⟩
  · rw [hr]
    exact ⟨iff_of_false (by simp) (fun hR => hR hA),
      iff_of_false (by simp) (fun hR => hR.2 hB),
      iff_of_false (by simp) (fun hR => hR.2.2 hC),
      iff_of_true rfl ⟨hA, hB, hC, hD⟩,
      iff_of_false (by simp) (fun hR => hD hR.2.2.2.1),
      iff_of_false (by simp) (fun hR => hD hR.2.2.2.1),
      by decide, fun err _ => rfl⟩
  · rw [hr]
    exact ⟨iff_of_false (by simp) (fun hR => hR hA),
      iff_of_false (by simp) (fun hR => hR.2 hB),
      iff_of_false (by simp) (fun hR => hR.2.2 hC),
      iff_of_false (by simp) (fun hR => hR.2.2.2 hD),
      iff_of_true rfl ⟨hA, hB, hC, hD, hE⟩,
      iff_of_false (by simp) (fun hR => hE hR.2.2.2.2.1),
      by decide, fun err _ => rfl⟩
  · rw [hr]
    exact ⟨iff_of_false (by simp) (fun hR => hR hA),
      iff_of_false (by simp) (fun hR => hR.2 hB),
      iff_of_false (by simp) (fun hR => hR.2.2 hC),
      iff_of_false (by simp) (fun hR => hR.2.2.2 hD),
      iff_of_false (by simp) (fun hR => hR.2.2.2.2 hE),
      iff_of_true rfl ⟨hA, hB, hC, hD, hE, hF⟩,
      by decide, fun err _ => rfl⟩
  · rw [hr]
    exact ⟨iff_of_false (by simp) (fun hR => hR hA),
      iff_of_false (by simp) (fun hR => hR.2 hB),
      iff_of_false (by simp) (fun hR => hR.2.2 hC),
      iff_of_false (by simp) (fun hR => hR.2.2.2 hD),
      iff_of_false (by simp) (fun hR => hR.2.2.2.2 hE),
      iff_of_false (by simp) (fun hR => hR.2.2.2.2.2 hF),
      by decide, fun err _ => rfl⟩
  · rw [hr]
    exact ⟨iff_of_false (by simp) (fun hR => hR hA),
      iff_of_false (by simp) (fun hR => hR.2 hB),
      iff_of_false (by simp) (fun hR => hR.2.2 hC),
      iff_of_false (by simp) (fun hR => hR.2.2.2 hD),
      iff_of_false (by simp) (fun hR => hR.2.2.2.2 hE),
      iff_of_false (by simp) (fun hR => hR.2.2.2.2.2 hF),
      by decide, fun err hE2 => absurd hE2 (by simp)⟩

/-- Concrete instantiation of the guard-order theorem: an oversized amount
is rejected with the distinct bounds error. -/
theorem executeMint_guard_order_witness :
    executeMint st1 envM rig1 7 200 = .error .amountOutOfBounds :=
  (executeMint_guard_order st1 envM rig1 7 200 (by decide) (by decide)
    (by decide)).2.1.mpr ⟨by decide, by decide⟩

/-- Claim C6: an Owner call to updateConfig succeeds exactly when
maxMintAmount is at least minMintAmount, cooldownPeriod is at most 86400
seconds and maxGasPrice is positive; on success the stored configuration is
exactly the new field values (with the rest of the state untouched), and on
any validation failure the state is unchanged. -/
theorem updateConfig_spec (st : ControllerState) (env : Env)
    (newMaxPrice newMargin newMaxMint newMinMint : Nat) (newEnabled : Bool)
    (newCooldown newMaxGas : Nat)
    (howner : env.senderIsOwner = true) :
    ((∃ out, updateConfig st env newMaxPrice newMargin newMaxMint newMinMint
        newEnabled newCooldown newMaxGas = .ok out) ↔
      (newMinMint ≤ newMaxMint ∧ newCooldown ≤ 86400 ∧ 0 < newMaxGas)) ∧
    (newMinMint ≤ newMaxMint → newCooldown ≤ 86400 → 0 < newMaxGas →
      updateConfig st env newMaxPrice newMargin newMaxMint newMinMint
          newEnabled newCooldown newMaxGas =
        .ok ({ st with config := ⟨newMaxPrice, newMargin, newMaxMint,
                 newMinMint, newEnabled, newCooldown, newMaxGas⟩ },
             .configUpdated ⟨newMaxPrice, newMargin, newMaxMint, newMinMint,
               newEnabled, newCooldown, newMaxGas⟩)) ∧
    (∀ err, updateConfig st env newMaxPrice newMargin newMaxMint newMinMint
        newEnabled newCooldown newMaxGas = .error err →
      applyCall st (updateConfig st env newMaxPrice newMargin newMaxMint
        newMinMint newEnabled newCooldown newMaxGas) = st) := by
  unfold updateConfig
  split_ifs with h0 hA hB hC
  · simp [howner] at h0
  · refine ⟨iff_of_false ?_ ?_, ?_, fun err _ => rfl⟩
    · rintro ⟨out, h⟩; simp at h
    · intro hR; omega
    · intro hx _ _; omega
  · refine ⟨iff_of_false ?_ ?_, ?_, fun err _ => rfl⟩
    · rintro ⟨out, h⟩; simp at h
    · intro hR; omega
    · intro _ hx _; omega
  · refine ⟨iff_of_false ?_ ?_, ?_, fun err _ => rfl⟩
    · rintro ⟨out, h⟩; simp at h
    · intro hR; omega
    · intro _ _ hx; omega
  · refine ⟨iff_of_true ⟨_, rfl⟩ ⟨by omega, by omega, by omega⟩,
      fun _ _ _ => rfl, fun err h => absurd h (by simp)⟩

/-- Concrete instantiation of the updateConfig specification. -/
theorem updateConfig_spec_witness :
    updateConfig st1 envO 2000 1000 200 2 true 600 20 =
      .ok ({ st1 with config := ⟨2000, 1000, 200, 2, true, 600, 20⟩ },
           .configUpdated ⟨2000, 1000, 200, 2, true, 600, 20⟩) :=
  (updateConfig_spec st1 envO 2000 1000 200 2 true 600 20 (by decide)).2.1
    (by decide) (by decide) (by decide)

/-- Claim C8: an Owner withdrawal with the zero sentinel, a nonzero
accepting recipient and a positive balance moves the entire balance to the
recipient, and the emitted event carries exactly the balance observed
before the call; the call fails on a zero recipient, on a zero resolved
amount, and on a request exceeding the balance. -/
theorem withdrawETH_spec (st : ControllerState) (env : Env)
    (toAddr amount : Nat) (howner : env.senderIsOwner = true) :
    (toAddr ≠ 0 → 0 < st.balance → env.transferOk = true →
      withdrawETH st env toAddr 0 =
        .ok ({ st with balance := 0 }, .ethWithdrawn toAddr st.balance)) ∧
    (toAddr = 0 →
      withdrawETH st env toAddr amount = .error .invalidRecipient) ∧
    (toAddr ≠ 0 → amount = 0 → st.balance = 0 →
      withdrawETH st env toAddr amount = .error .nothingToWithdraw) ∧
    (toAddr ≠ 0 → st.balance < amount →
      withdrawETH st env toAddr amount = .error .insufficientBalance) := by
  refine ⟨?_, ?_, ?_, ?_⟩
  · intro ht hb htr
    simp [withdrawETH, howner, ht, htr, Nat.pos_iff_ne_zero.mp hb]
  · intro h0
    simp [withdrawETH, howner, h0]
  · intro ht h0 hbal
    simp [withdrawETH, howner, ht, h0, hbal]
  · intro ht hlt
    have hne : amount ≠ 0 := by omega
    simp [withdrawETH, howner, ht, hne, hlt]

/-- Concrete instantiation of the withdrawal specification: the sentinel
moves the entire balance. -/
theorem withdrawETH_spec_witness :
    withdrawETH st1 envO 9 0 =
      .ok ({ st1 with balance := 0 }, .ethWithdrawn 9 st1.balance) :=
  (withdrawETH_spec st1 envO 9 0 (by decide)).1 (by decide) (by decide)
    (by decide)

/-- Claim C9: under a well-formed mint range, a nonzero recommendation from
checkProfitability equals maxMintAmount, satisfies the amount bounds used
by executeMint, and can therefore never make executeMint fail its bounds
guard. -/
theorem recommendedAmount_meets_bounds (st : ControllerState)
    (rig : RigView) (env : Env) (recipient : Nat)
    (hinv : st.config.minMintAmount ≤ st.config.maxMintAmount)
    (hrec : (checkProfitability st rig).2.2 ≠ 0) :
    (checkProfitability st rig).2.2 = st.config.maxMintAmount ∧
    amountInBounds st.config (checkProfitability st rig).2.2 ∧
    executeMint st env rig recipient ((checkProfitability st rig).2.2) ≠
      .error .amountOutOfBounds := by
  have heq := checkProfitability_eq st rig
  have hmax : (checkProfitability st rig).2.2 = st.config.maxMintAmount := by
    by_cases hp : st.config.maxPricePerToken < rig.quotePrice
    · rw [heq, if_pos hp] at hrec
      simp at hrec
    · rw [heq, if_neg hp]
  refine ⟨hmax, ?_, ?_⟩
  · rw [hmax]
    exact ⟨hinv, Nat.le_refl _⟩
  · rw [hmax]
    exact executeMint_ne_oob st env rig recipient st.config.maxMintAmount
      hinv (Nat.le_refl _)

/-- Concrete instantiation of the recommendation-bounds theorem. -/
theorem recommendedAmount_meets_bounds_witness :
    executeMint st1 envM rig1 7 ((checkProfitability st1 rig1).2.2) ≠
      .error .amountOutOfBounds :=
  (recommendedAmount_meets_bounds st1 rig1 envM 7 (by decide)
    (by decide)).2.2

/-- Claim C10: executeMint computes the implied per-unit price as the
quoted cost times 10^18 divided by the amount; a configuration with
positive minMintAmount keeps that divisor nonzero whenever the bounds
guard passes; updateConfig itself accepts minMintAmount = 0 (it requires
only maxMintAmount at least minMintAmount), and under such a configuration
a zero-amount call reaches the division-by-zero panic. -/
theorem impliedPrice_division_safety :
    (∀ cfg amount, 0 < cfg.minMintAmount → amountInBounds cfg amount →
      0 < amount) ∧
    (∀ st env rig recipient amount, env.senderIsManager = true →
      noMintPanics st rig amount → 0 < amount →
      (executeMint st env rig recipient amount = .error .priceTooHigh ↔
        miningEnabled st ∧ amountInBounds st.config amount ∧
        cooldownElapsed st env ∧ gasPriceOk st env ∧
        balanceCoversCost st rig amount ∧
        st.config.maxPricePerToken <
          impliedPricePerToken (rig.quote amount) amount)) ∧
    updateConfig st1 envO 1000000000000000000 0 5 0 true 10 10 =
      .ok ({ st1 with config := cfgMin0 }, .configUpdated cfgMin0) ∧
    executeMint stMin0 envM rigMin0 7 0 = .error (.panic .divByZero) := by
  refine ⟨?_, ?_, rfl, rfl⟩
  · intro cfg amount h1 h2
    have := h2.1
    omega
  · intro st env rig recipient amount hmgr hnp hamt
    rcases executeMint_outcome st env rig recipient amount hmgr hnp hamt with
      ⟨hA, hr⟩ | ⟨hA, hB, hr⟩ | ⟨hA, hB, hC, hr⟩ | ⟨hA, hB, hC, hD, hr⟩ |
      ⟨hA, hB, hC, hD, hE, hr⟩ | ⟨hA, hB, hC, hD, hE, hF, hr⟩ |
      ⟨hA, hB, hC, hD, hE, hF, hM, hr⟩ | ⟨hA, hB, hC, hD, hE, hF, hM, hr⟩
    · exact iff_of_false (by rw [hr]; simp) (fun hR => hA hR.1)
    · exact iff_of_false (by rw [hr]; simp) (fun hR => hB hR.2.1)
    · exact iff_of_false (by rw [hr]; simp) (fun hR => hC hR.2.2.1)
    · exact iff_of_false (by rw [hr]; simp) (fun hR => hD hR.2.2.2.1)
    · exact iff_of_false (by rw [hr]; simp) (fun hR => hE hR.2.2.2.2.1)
    · exact iff_of_true hr ⟨hA, hB, hC, hD, hE, Nat.not_le.mp hF⟩
    · exact iff_of_false (by rw [hr]; simp)
        (fun hR => absurd hR.2.2.2.2.2 (Nat.not_lt.mpr hF))
    · exact iff_of_false (by rw [hr]; simp)
        (fun hR => absurd hR.2.2.2.2.2 (Nat.not_lt.mpr hF))

/-- Concrete instantiation of the division-safety theorem: a bounds-passing
amount under a positive minMintAmount is nonzero. -/
theorem impliedPrice_division_safety_witness : (0 : Nat) < 10 :=
  impliedPrice_division_safety.1 cfg1 10 (by decide) (by decide)

/-- Claim C4 counterexample: on a concrete tick with mining enabled and
canMintNow false, the monitor has already issued the checkProfitability
read before evaluating canMintNow, so the claim that such a tick skips
without reading checkProfitability is false. -/
theorem checkAndMine_reads_profitability_on_cooldown :
    MonitorCall.checkProfitability ∈
      (checkAndMine ⟨true, false, 5, 10, 0, 1⟩ ⟨true, 5, 10⟩ 7).1 ∧
    (checkAndMine ⟨true, false, 5, 10, 0, 1⟩ ⟨true, 5, 10⟩ 7).2 =
      .cooldownSkip := by
  exact ⟨by decide, by decide⟩

/-- Claim C4 amended: on every tick where mining is enabled and canMintNow
is false, the monitor issues exactly getMiningStatus followed by
checkProfitability, then skips with the cooldown outcome and never submits
executeMint; checkProfitability is thus read before the canMintNow check,
not after it. -/
theorem checkAndMine_cooldown_skip (status : MiningStatus)
    (prof : ProfitabilityView) (recipient : Nat)
    (hen : status.isEnabled = true) (hcm : status.canMintNow = false) :
    checkAndMine status prof recipient =
      ([.getMiningStatus, .checkProfitability], .cooldownSkip) := by
  simp [checkAndMine, hen, hcm]

/-- Concrete instantiation of the amended tick behaviour. -/
theorem checkAndMine_cooldown_skip_witness :
    checkAndMine ⟨true, false, 5, 10, 0, 1⟩ ⟨true, 5, 10⟩ 7 =
      ([.getMiningStatus, .checkProfitability], .cooldownSkip) :=
  checkAndMine_cooldown_skip ⟨true, false, 5, 10, 0, 1⟩ ⟨true, 5, 10⟩ 7
    rfl rfl

/-- A committed updateConfig keeps the cooldown timer. -/
theorem updateConfig_ok_inv (st : ControllerState) (env : Env)
    (a b c d : Nat) (e : Bool) (f g : Nat) (st2 : ControllerState)
    (ev : Event) (h : updateConfig st env a b c d e f g = .ok (st2, ev)) :
    st2.lastMintTimestamp = st.lastMintTimestamp := by
  unfold updateConfig at h
  by_cases c1 : env.senderIsOwner = false
  · rw [if_pos c1] at h; exact absurd h (by simp)
  rw [if_neg c1] at h
  by_cases c2 : c < d
  · rw [if_pos c2] at h; exact absurd h (by simp)
  rw [if_neg c2] at h
  by_cases c3 : 86400 < f
  · rw [if_pos c3] at h; exact absurd h (by simp)
  rw [if_neg c3] at h
  by_cases c4 : g = 0
  · rw [if_pos c4] at h; exact absurd h (by simp)
  rw [if_neg c4] at h
  rw [Except.ok.injEq, Prod.mk.injEq] at h
  obtain ⟨hst, -⟩ := h
  subst hst
  rfl

/-- A committed emergencyStop keeps the cooldown timer. -/
theorem emergencyStop_ok_inv (st : ControllerState) (env : Env)
    (st2 : ControllerState) (ev : Event)
    (h : emergencyStop st env = .ok (st2, ev)) :
    st2.lastMintTimestamp = st.lastMintTimestamp := by
  unfold emergencyStop at h
  by_cases c1 : env.senderIsOwner = false
  · rw [if_pos c1] at h; exact absurd h (by simp)
  rw [if_neg c1] at h
  rw [Except.ok.injEq, Prod.mk.injEq] at h
  obtain ⟨hst, -⟩ := h
  subst hst
  rfl

/-- A committed withdrawETH keeps the cooldown timer. -/
theorem withdrawETH_ok_inv (st : ControllerState) (env : Env)
    (toAddr amount : Nat) (st2 : ControllerState) (ev : Event)
    (h : withdrawETH st env toAddr amount = .ok (st2, ev)) :
    st2.lastMintTimestamp = st.lastMintTimestamp := by
  unfold withdrawETH at h
  by_cases c1 : env.senderIsOwner = false
  · rw [if_pos c1] at h; exact absurd h (by simp)
  rw [if_neg c1] at h
  by_cases c2 : toAddr = 0
  · rw [if_pos c2] at h; exact absurd h (by simp)
  rw [if_neg c2] at h
  by_cases c3 : (if amount = 0 then st.balance else amount) = 0
  · rw [if_pos c3] at h; exact absurd h (by simp)
  rw [if_neg c3] at h
  by_cases c4 : st.balance < (if amount = 0 then st.balance else amount)
  · rw [if_pos c4] at h; exact absurd h (by simp)
  rw [if_neg c4] at h
  by_cases c5 : env.transferOk = false
  · rw [if_pos c5] at h; exact absurd h (by simp)
  rw [if_neg c5] at h
  rw [Except.ok.injEq, Prod.mk.injEq] at h
  obtain ⟨hst, -⟩ := h
  subst hst
  rfl

/-- Per-operation effect on the cooldown timer: either it is untouched, or
the operation is an executeMint that succeeded, stamping its call time at
least one full cooldown past the previous timer value. -/
theorem step_lastMint (st : ControllerState) (op : Op) :
    (step st op).lastMintTimestamp = st.lastMintTimestamp ∨
    (∃ env rig recipient amount,
      op = .executeMint env rig recipient amount ∧
      mintOk st env rig recipient amount = true ∧
      (step st op).lastMintTimestamp = env.timestamp ∧
      st.lastMintTimestamp + st.config.cooldownPeriod ≤ env.timestamp) := by
  cases op with
  | executeMint env rig recipient amount =>
      cases hE : executeMint st env rig recipient amount with
      | error e => left; simp [step, applyCall, hE]
      | ok out =>
          obtain ⟨st2, ev⟩ := out
          obtain ⟨ha, hb, -⟩ :=
            executeMint_ok_inv st env rig recipient amount st2 ev hE
          right
          exact ⟨env, rig, recipient, amount, rfl, by simp [mintOk, hE],
            by simp [step, applyCall, hE, ha], hb⟩
  | updateConfig env a b c d e f g =>
      left
      cases hE : updateConfig st env a b c d e f g with
      | error e2 => simp [step, applyCall, hE]
      | ok out =>
          obtain ⟨st2, ev⟩ := out
          have h2 := updateConfig_ok_inv st env a b c d e f g st2 ev hE
          simp [step, applyCall, hE, h2]
  | emergencyStop env =>
      left
      cases hE : emergencyStop st env with
      | error e2 => simp [step, applyCall, hE]
      | ok out =>
          obtain ⟨st2, ev⟩ := out
          have h2 := emergencyStop_ok_inv st env st2 ev hE
          simp [step, applyCall, hE, h2]
  | withdrawETH env toAddr amount =>
      left
      cases hE : withdrawETH st env toAddr amount with
      | error e2 => simp [step, applyCall, hE]
      | ok out =>
          obtain ⟨st2, ev⟩ := out
          have h2 := withdrawETH_ok_inv st env toAddr amount st2 ev hE
          simp [step, applyCall, hE, h2]
  | withdrawTokens env token toAddr amount => left; rfl
  | receiveETH env => left; rfl

/-- The cooldown timer never moves across a sequence containing no
successful mint. -/
theorem noSuccessfulMint_run (st : ControllerState) (ops : List Op)
    (h : noSuccessfulMint st ops) :
    (run st ops).lastMintTimestamp = st.lastMintTimestamp := by
  induction ops generalizing st with
  | nil => rfl
  | cons op rest ih =>
      obtain ⟨h1, h2⟩ := h
      have hstep : (step st op).lastMintTimestamp = st.lastMintTimestamp := by
        rcases step_lastMint st op with h3 | ⟨env, rig, r, a, heq, hok, -, -⟩
        · exact h3
        · exact absurd hok (by rw [h1 env rig r a heq]; simp)
      rw [show run st (op :: rest) = run (step st op) rest from rfl,
        ih (step st op) h2, hstep]

/-- Claim C7: across every operation sequence the cooldown timer never
decreases; a single step moves it only when that step is a successful
executeMint; and when two successful mints are separated by operations
containing no successful mint, the second call time lies at least one full
cooldown (as configured at the second call) after the first, so at most one
mint can succeed within any cooldown window. -/
theorem lastMint_monotone_and_window :
    (∀ st ops, st.lastMintTimestamp ≤ (run st ops).lastMintTimestamp) ∧
    (∀ st op, (step st op).lastMintTimestamp ≠ st.lastMintTimestamp →
      ∃ env rig recipient amount,
        op = .executeMint env rig recipient amount ∧
        mintOk st env rig recipient amount = true) ∧
    (∀ st env rig recipient amount mid env2 rig2 recipient2 amount2,
      mintOk st env rig recipient amount = true →
      noSuccessfulMint (step st (.executeMint env rig recipient amount))
        mid →
      mintOk (run (step st (.executeMint env rig recipient amount)) mid)
        env2 rig2 recipient2 amount2 = true →
      env.timestamp + (run (step st (.executeMint env rig recipient amount)) mid).config.cooldownPeriod ≤
        env2.timestamp) := by
  refine ⟨?_, ?_, ?_⟩
  · intro st ops
    induction ops generalizing st with
    | nil => exact Nat.le_refl _
    | cons op rest ih =>
        have h1 : st.lastMintTimestamp ≤ (step st op).lastMintTimestamp := by
          rcases step_lastMint st op with h | ⟨_, _, _, _, _, _, hts, hle⟩ <;>
            omega
        exact Nat.le_trans h1 (ih (step st op))
  · intro st op hne
    rcases step_lastMint st op with h | ⟨env, rig, r, a, heq, hok, -, -⟩
    · exact absurd h hne
    · exact ⟨env, rig, r, a, heq, hok⟩
  · intro st env rig recipient amount mid env2 rig2 recipient2 amount2
      hok1 hmid hok2
    have h1 : (step st (.executeMint env rig recipient amount)).lastMintTimestamp = env.timestamp := by
      unfold mintOk at hok1
      cases hE : executeMint st env rig recipient amount with
      | error e => rw [hE] at hok1; simp at hok1
      | ok out =>
          obtain ⟨st2, ev⟩ := out
          obtain ⟨ha, -, -⟩ :=
            executeMint_ok_inv st env rig recipient amount st2 ev hE
          simp [step, applyCall, hE, ha]
    have h2 := noSuccessfulMint_run _ mid hmid
    unfold mintOk at hok2
    cases hE2 : executeMint
        (run (step st (.executeMint env rig recipient amount)) mid)
        env2 rig2 recipient2 amount2 with
    | error e => rw [hE2] at hok2; simp at hok2
    | ok out =>
        obtain ⟨st3, ev2⟩ := out
        obtain ⟨-, hb, -⟩ := executeMint_ok_inv _ env2 rig2 recipient2
          amount2 st3 ev2 hE2
        omega

/-- Concrete instantiation of the cooldown-window theorem: two successful
mints 10 seconds apart under a 10 second cooldown. -/
theorem lastMint_window_witness :
    envW1.timestamp + (run (step stW (.executeMint envW1 rig1 5 2)) []).config.cooldownPeriod ≤
      envW2.timestamp :=
  lastMint_monotone_and_window.2.2 stW envW1 rig1 5 2 [] envW2 rig1 5 2
    (by decide) trivial (by decide)

end Franchiser
